import Mathlib

set_option maxRecDepth 1200

/-!
Verification of the InfraCalendar extraction/normalization core.

Shallow embedding of the Python sources:
  app/services/page_date_service.py    (format_date, format_rrule)
  app/services/ical_normalizer.py      (normalize_text, fold_line, normalize_duration)
  app/services/ical_formatting_service.py (format_ical DESCRIPTION escaping)
  app/repositories/events.py           (_is_valid_event, _compute_hash)
  app/clients/ollama_client.py         (chat_is_event, chat_page_extract)
  app/services/page_event_extractor.py (extract_events)

Conventions:
  - Python `str` is modelled as Lean `String` (or `List Char` where we induct).
  - Python `None` is `Option.none`; Python truthiness of strings/options is
    modelled explicitly (empty string and `none` are falsy).
  - Python exceptions are modelled with `Except`: a raised exception is
    `Except.error`, normal return is `Except.ok`.
  - External library primitives (dateutil parsing, regex searches used by the
    heuristic extractor) are passed in as explicit function parameters: the
    theorems proved about the surrounding repository code hold for every
    behaviour of those primitives.
-/

/-! ### Python string helpers -/

/-- Python `\s` (and the `str.strip` default set) on the ASCII range:
space, tab, newline, carriage return, vertical tab, form feed. -/
def isPySpace (c : Char) : Bool :=
  c = ' ' ∨ c = '\t' ∨ c = '\n' ∨ c = '\r' ∨ c = Char.ofNat 11 ∨ c = Char.ofNat 12

/-- Python `str.strip()` (whitespace strip on both ends). -/
def pyStrip (s : String) : String :=
  String.mk (((s.data.dropWhile isPySpace).reverse.dropWhile isPySpace).reverse)

/-- Python `str.lower()` on the character range relevant here (ASCII). -/
def pyLower (s : String) : String := String.mk (s.data.map Char.toLower)

/-- Python `str.upper()` on the character range relevant here (ASCII). -/
def pyUpper (s : String) : String := String.mk (s.data.map Char.toUpper)

/-- Python truthiness of an optional string: `None` and `""` are falsy. -/
def pyTruthy : Option String → Bool
  | none => false
  | some s => s ≠ ""

/-- Python `a or b` on optional strings (returns `b` when `a` is falsy). -/
def pyOrOpt (a b : Option String) : Option String :=
  if pyTruthy a then a else b

/-- Python `str(x)` applied to an `Optional[str]` field: `None` prints as
"None". Used by the f-string in `EventsRepository._compute_hash`. -/
def pyStr : Option String → String
  | none => "None"
  | some s => s

/-! ### Domain `Event` (app/domain/event.py)

The dataclass is modelled with its annotated field types; the fields the
claims never inspect are kept so the embedding has the same shape. -/

structure Event where
  uid : Option String := none
  dtstamp : Option String := none
  dtstart : Option String := none
  dtend : Option String := none
  duration : Option String := none
  summary : Option String := none
  description : Option String := none
  location : Option String := none
  url : Option String := none
  geo : Option String := none
  categories : List String := []
  status : Option String := none
  transp : Option String := none
  sequence : Option Int := none
  created : Option String := none
  last_modified : Option String := none
  organizer : Option String := none
  attendees : List String := []
  attach : List String := []
  classification : Option String := none
  priority : Option Int := none
  rrule : Option String := none
  rdate : List String := []
  exdate : List String := []
  recurrence_id : Option String := none
  tzid : Option String := none
  raw : Option String := none
  title : Option String := none
  start : Option String := none
  deriving Repr, DecidableEq

/-! ### Validity gate (app/repositories/events.py, `_is_valid_event`) -/

/-- The minimum description length used by `_is_valid_event`
(`len(event.description) >= 40`). -/
def minDescriptionLength : Nat := 40

/-- Embedding of `EventsRepository._is_valid_event`.  The Python parameter can
be `None`, hence the `Option Event` argument. -/
def isValidEvent : Option Event → Bool
  | none => false
  | some event =>
    if event.title = none ∨ event.start = none then false
    else
      let has_location := event.location ≠ none
      let has_description :=
        match event.description with
        | none => false
        | some d => d.length ≥ minDescriptionLength
      has_location || has_description

/-! ### Content fingerprint (app/repositories/events.py, `_compute_hash`) -/

/-- The f-string content hashed by `_compute_hash`:
`f"{event.title}|{event.start}|{event.dtstart}|{event.summary}|{event.location}|{event.url}"`. -/
def hashContent (event : Event) : String :=
  pyStr event.title ++ "|" ++ pyStr event.start ++ "|" ++ pyStr event.dtstart ++ "|"
    ++ pyStr event.summary ++ "|" ++ pyStr event.location ++ "|" ++ pyStr event.url

/-! SHA-256 (hashlib.sha256(...).hexdigest()), implemented over `Nat` with
explicit reduction mod 2^32. -/

/-- Truncate to a 32-bit word. -/
def w32 (n : Nat) : Nat := n % 4294967296

/-- 32-bit right rotation. -/
def rotr32 (n x : Nat) : Nat := w32 (x / 2 ^ n + x * 2 ^ (32 - n))

/-- 32-bit xor. -/
def x32 (a b : Nat) : Nat := Nat.xor a b

/-- UTF-8 encoding of a string as a list of bytes (Python `str.encode()`). -/
def utf8Bytes (s : String) : List Nat :=
  s.data.flatMap fun c =>
    let n := c.toNat
    if n < 128 then [n]
    else if n < 2048 then [192 + n / 64, 128 + n % 64]
    else if n < 65536 then [224 + n / 4096, 128 + n / 64 % 64, 128 + n % 64]
    else [240 + n / 262144, 128 + n / 4096 % 64, 128 + n / 64 % 64, 128 + n % 64]

/-- SHA-256 round constants (FIPS 180-4 section 4.2.2), written in decimal. -/
def sha256K : List Nat :=
  [
   1116352408, 1899447441, 3049323471, 3921009573, 961987163, 1508970993,
   2453635748, 2870763221, 3624381080, 310598401, 607225278, 1426881987,
   1925078388, 2162078206, 2614888103, 3248222580, 3835390401, 4022224774,
   264347078, 604807628, 770255983, 1249150122, 1555081692, 1996064986,
   2554220882, 2821834349, 2952996808, 3210313671, 3336571891, 3584528711,
   113926993, 338241895, 666307205, 773529912, 1294757372, 1396182291,
   1695183700, 1986661051, 2177026350, 2456956037, 2730485921, 2820302411,
   3259730800, 3345764771, 3516065817, 3600352804, 4094571909, 275423344,
   430227734, 506948616, 659060556, 883997877, 958139571, 1322822218,
   1537002063, 1747873779, 1955562222, 2024104815, 2227730452, 2361852424,
   2428436474, 2756734187, 3204031479, 3329325298
  ]

/-- SHA-256 message padding: append 0x80, zero bytes, and the 64-bit bit length. -/
def sha256Pad (msg : List Nat) : List Nat :=
  let len := msg.length
  let bitLen := len * 8
  let padZeros := (119 - len % 64) % 64
  msg ++ [128] ++ List.replicate padZeros 0 ++
    [bitLen / 2 ^ 56 % 256, bitLen / 2 ^ 48 % 256, bitLen / 2 ^ 40 % 256, bitLen / 2 ^ 32 % 256,
     bitLen / 2 ^ 24 % 256, bitLen / 2 ^ 16 % 256, bitLen / 2 ^ 8 % 256, bitLen % 256]

/-- Split a list into chunks of the given positive size. -/
def listChunks (k : Nat) (l : List α) : List (List α) :=
  match l with
  | [] => []
  | a :: t =>
    if hk : k = 0 then []
    else (a :: t).take k :: listChunks k ((a :: t).drop k)
  termination_by l.length
  decreasing_by
    have := Nat.pos_of_ne_zero hk
    simp [List.length_drop]
    omega

/-- Build the 64-entry message schedule from a 16-word block. -/
def sha256Schedule (block : List Nat) : List Nat :=
  let rec go (w : List Nat) (i : Nat) : List Nat :=
    match i with
    | 0 => w
    | j + 1 =>
      let t := w.length
      let get (k : Nat) : Nat := w.getD (t - k) 0
      let s0 := x32 (x32 (rotr32 7 (get 15)) (rotr32 18 (get 15))) (get 15 / 2 ^ 3)
      let s1 := x32 (x32 (rotr32 17 (get 2)) (rotr32 19 (get 2))) (get 2 / 2 ^ 10)
      go (w ++ [w32 (get 16 + s0 + get 7 + s1)]) j
  go block 48

/-- One SHA-256 compression round. -/
def sha256Round (st : List Nat) (kw : Nat × Nat) : List Nat :=
  match st with
  | [a, b, c, d, e, f, g, h] =>
    let s1 := x32 (x32 (rotr32 6 e) (rotr32 11 e)) (rotr32 25 e)
    let ch := x32 (Nat.land e f) (Nat.land (4294967295 - e) g)
    let temp1 := w32 (h + s1 + ch + kw.1 + kw.2)
    let s0 := x32 (x32 (rotr32 2 a) (rotr32 13 a)) (rotr32 22 a)
    let maj := x32 (x32 (Nat.land a b) (Nat.land a c)) (Nat.land b c)
    let temp2 := w32 (s0 + maj)
    [w32 (temp1 + temp2), a, b, c, w32 (d + temp1), e, f, g]
  | other => other

/-- Compress one 64-byte block into the running hash state. -/
def sha256Compress (state : List Nat) (chunk : List Nat) : List Nat :=
  let words := (listChunks 4 chunk).map fun bs =>
    match bs with
    | [b0, b1, b2, b3] => b0 * 2 ^ 24 + b1 * 2 ^ 16 + b2 * 2 ^ 8 + b3
    | _ => 0
  let w := sha256Schedule words
  let final := (sha256K.zip w).foldl sha256Round state
  (state.zip final).map fun p => w32 (p.1 + p.2)

/-- SHA-256 of a byte list, as the list of eight 32-bit state words. -/
def sha256Words (msg : List Nat) : List Nat :=
  let init : List Nat :=
    [
     1779033703, 3144134277, 1013904242, 2773480762,
     1359893119, 2600822924, 528734635, 1541459225
    ]
  (listChunks 64 (sha256Pad msg)).foldl sha256Compress init

/-- Lower-case hex digit for a value below 16. -/
def hexDigit (n : Nat) : Char :=
  if n < 10 then Char.ofNat (48 + n) else Char.ofNat (87 + n)

/-- Fixed-width lower-case hex rendering of one 32-bit word. -/
def hex8 (n : Nat) : String :=
  String.mk ((List.range 8).map fun i => hexDigit (n / 2 ^ (28 - 4 * i) % 16))

/-- `hashlib.sha256(content.encode()).hexdigest()`. -/
def sha256Hex (s : String) : String :=
  String.join ((sha256Words (utf8Bytes s)).map hex8)

/-- Embedding of `EventsRepository._compute_hash`. -/
def computeHash (event : Event) : String :=
  sha256Hex (hashContent event)

/-! ### Recurrence rule (app/services/page_date_service.py, `format_rrule`) -/

/-- Python truthiness of an optional int: `None` and `0` are falsy. -/
def pyTruthyInt : Option Int → Bool
  | none => false
  | some n => n ≠ 0

/-- The field-set accepted by `format_rrule` (`{freq, interval?, count?, until?}`),
with the types the function actually manipulates: `freq` a string
(`.upper()` is called on it), `interval`/`count` integers, `until` a string
(named `until_` here because `until` is a Lean keyword). -/
structure RRuleDict where
  freq : Option String := none
  interval : Option Int := none
  count : Option Int := none
  until_ : Option String := none
  deriving Repr, DecidableEq

/-- Embedding of `PageDateService.format_rrule` (dict branch).
`rrule_obj.get("freq", "").upper()` is the `getD ""`/`toUpper` below; the
hallucination filter tests `interval == 1` (so an absent interval does not
match), `not count`, `not until`; parts are then assembled and joined with
";", returning `None` for an empty part list. -/
def formatRRule (r : RRuleDict) : Option String :=
  let freq := pyUpper (r.freq.getD "")
  if (freq = "DAILY" ∨ freq = "WEEKLY") ∧ r.interval = some 1
      ∧ pyTruthyInt r.count = false ∧ pyTruthy r.until_ = false then
    none
  else
    let parts : List String :=
      (if freq ≠ "" then ["FREQ=" ++ freq] else []) ++
      (if pyTruthyInt r.interval = true ∧ r.interval ≠ some 1 then
        ["INTERVAL=" ++ toString (r.interval.getD 0)] else []) ++
      (if pyTruthyInt r.count = true then ["COUNT=" ++ toString (r.count.getD 0)] else []) ++
      (if pyTruthy r.until_ = true then ["UNTIL=" ++ r.until_.getD ""] else [])
    if parts = [] then none else some (String.intercalate ";" parts)

/-! ### TEXT escaping (app/services/ical_normalizer.py `normalize_text`,
app/services/ical_formatting_service.py line 68) -/

/-- Python `str.replace(c, r)` for a single-character pattern, on the
character-list view of the string. -/
def pyReplace1 (c : Char) (r : List Char) (l : List Char) : List Char :=
  l.flatMap fun x => if x = c then r else [x]

/-- Embedding of `IcalNormalizer.normalize_text` (non-None branch): replace
backslash, then newline, then comma, then semicolon, in that order. -/
def normalizeTextChars (l : List Char) : List Char :=
  pyReplace1 ';' ['\\', ';']
    (pyReplace1 ',' ['\\', ',']
      (pyReplace1 '\n' ['\\', 'n']
        (pyReplace1 '\\' ['\\', '\\'] l)))

/-- `IcalNormalizer.normalize_text` on strings. -/
def normalizeText (s : String) : String := String.mk (normalizeTextChars s.data)

/-- The inlined DESCRIPTION escaping in `ICalFormattingService.format_ical`
(line 68): replace backslash, then comma, then semicolon, then newline. -/
def descEscapeChars (l : List Char) : List Char :=
  pyReplace1 '\n' ['\\', 'n']
    (pyReplace1 ';' ['\\', ';']
      (pyReplace1 ',' ['\\', ',']
        (pyReplace1 '\\' ['\\', '\\'] l)))

/-- The formatter's DESCRIPTION escaping on strings. -/
def descEscape (s : String) : String := String.mk (descEscapeChars s.data)

/-! ### Line folding (app/services/ical_normalizer.py, `fold_line`) -/

/-- The RFC5545 fold separator inserted by `fold_line`: CRLF + one space. -/
def foldPat : List Char := ['\r', '\n', ' ']

/-- Python `sep.join(parts)` on character lists. -/
def joinSep (sep : List Char) : List (List Char) → List Char
  | [] => []
  | [c] => c
  | c :: c2 :: cs => c ++ sep ++ joinSep sep (c2 :: cs)

/-- Embedding of `IcalNormalizer.fold_line`: identity when the line is empty
or no longer than `width`, otherwise the width-sized chunks joined with
CRLF + space.  (`width = 0` would raise in Python's `range`; the claims only
concern `width ≥ 1`.) -/
def foldLineChars (width : Nat) (l : List Char) : List Char :=
  if l = [] ∨ l.length ≤ width then l
  else joinSep foldPat (listChunks width l)

/-- `IcalNormalizer.fold_line` on strings (default width 75). -/
def foldLine (line : String) (width : Nat := 75) : String :=
  String.mk (foldLineChars width line.data)

/-- Boolean test that `p` is a leading segment of `l`. -/
def leadsWith : List Char → List Char → Bool
  | [], _ => true
  | _ :: _, [] => false
  | a :: ps, b :: ls => a = b && leadsWith ps ls

/-- Boolean test that `p` occurs as a contiguous run somewhere in `l`. -/
def hasOccur (p : List Char) : List Char → Bool
  | [] => leadsWith p []
  | a :: t => leadsWith p (a :: t) || hasOccur p t

/-- Delete every occurrence of CRLF+space, scanning left to right without
re-examining already-produced output (the semantics of
`folded.replace("\r\n ", "")`). -/
def removeFold : List Char → List Char
  | [] => []
  | a :: t =>
    if a = '\r' ∧ t.take 2 = ['\n', ' '] then removeFold (t.drop 2)
    else a :: removeFold t
  termination_by l => l.length
  decreasing_by
    · simp [List.length_drop]
      omega
    · simp

/-! ### Durations (app/services/ical_normalizer.py, `normalize_duration`) -/

/-- The kinds of value `normalize_duration` is called with (the `timedelta`
branch is unused by this repository's callers and is not modelled). -/
inductive DurationValue where
  | pyNone
  | int (n : Int)
  | str (s : String)
  deriving Repr, DecidableEq

/-- Numeric value of a digit run. -/
def natOfDigits (ds : List Char) : Nat :=
  ds.foldl (fun a c => a * 10 + (c.toNat - 48)) 0

/-- Matcher for one optional regex group `(?:(\d+)\s*X)?` at the current
position: a nonempty digit run, optional whitespace, then the literal `X`;
if that fails the group matches emptily and consumes nothing.  (For this
pattern the regex engine's backtracking cannot succeed with a shorter digit
or whitespace run, so the greedy scan below is exact.) -/
def reGroupNum (lit : Char) (l : List Char) : Option Nat × List Char :=
  let ds := l.takeWhile Char.isDigit
  if ds = [] then (none, l)
  else
    match (l.dropWhile Char.isDigit).dropWhile isPySpace with
    | c :: t => if c = lit then (some (natOfDigits ds), t) else (none, l)
    | [] => (none, l)

/-- The group tuple of the first `re.findall` match (the match at position 0)
of `(?:(\d+)\s*d)?\s*(?:(\d+)\s*h)?\s*(?:(\d+)\s*m)?\s*(?:(\d+)\s*s)?`.
Every group is optional, so the pattern matches (possibly emptily) at
position 0 of every string: `findall` always returns at least one tuple,
`if m:` is always true, and the `else` branch of `normalize_duration`
(the P/PT passthrough at lines 169-172) is unreachable. -/
def durGroups (l : List Char) : Option Nat × Option Nat × Option Nat × Option Nat :=
  let (d, l1) := reGroupNum 'd' l
  let (h, l2) := reGroupNum 'h' (l1.dropWhile isPySpace)
  let (m, l3) := reGroupNum 'm' (l2.dropWhile isPySpace)
  let (s, _) := reGroupNum 's' (l3.dropWhile isPySpace)
  (d, h, m, s)

/-- The `PnDTnHnMnS` assembly at the end of `normalize_duration`: repeated
`divmod` (floor division, as in Python), parts included only when nonzero,
`None` when every part is zero. -/
def buildDuration (secs : Int) : Option String :=
  let days := Int.ediv secs 86400
  let rem := Int.emod secs 86400
  let hours := Int.ediv rem 3600
  let rem2 := Int.emod rem 3600
  let minutes := Int.ediv rem2 60
  let seconds := Int.emod rem2 60
  let dayParts := if days ≠ 0 then [toString days ++ "D"] else []
  let timeParts :=
    (if hours ≠ 0 then [toString hours ++ "H"] else []) ++
    (if minutes ≠ 0 then [toString minutes ++ "M"] else []) ++
    (if seconds ≠ 0 then [toString seconds ++ "S"] else [])
  let parts := dayParts ++ (if timeParts ≠ [] then ["T" ++ String.join timeParts] else [])
  if parts ≠ [] then some ("P" ++ String.join parts) else none

/-- The seconds recovered from a duration string: the string is stripped and
lower-cased, the `d`/`h`/`m`/`s` groups are scanned, and `int(x or 0)` maps
an empty group to 0 (lines 162-167 of `normalize_duration`). -/
def strDurationSecs (s : String) : Int :=
  let (d, h, m, sec) := durGroups ((pyLower (pyStrip s)).data)
  (d.getD 0 : Int) * 86400 + (h.getD 0 : Int) * 3600
    + (m.getD 0 : Int) * 60 + (sec.getD 0 : Int)

/-- Embedding of `IcalNormalizer.normalize_duration` for the values it can
receive: `None`, an int (seconds), or a string. -/
def normalizeDuration : DurationValue → Option String
  | .pyNone => none
  | .int n => buildDuration n
  | .str s => buildDuration (strDurationSecs s)

/-! ### Dates (app/services/page_date_service.py, `format_date`, dict branch)

`datetime` arithmetic is modelled with a proleptic-Gregorian day count
(CPython's `datetime` ordinal): `toSecs` is strictly monotone in the
timeline, and `datetime(...)` validation (`ValueError`) is the `validDT`
check.  `now` (Python `datetime.now()`) is an explicit parameter. -/

/-- Gregorian leap-year rule (as in `calendar`/`datetime`). -/
def isLeap (y : Nat) : Bool := y % 4 = 0 && (y % 100 ≠ 0 || y % 400 = 0)

/-- Days in a month, per `datetime`. -/
def daysInMonth (y m : Nat) : Nat :=
  if m = 2 then (if isLeap y then 29 else 28)
  else if m = 4 ∨ m = 6 ∨ m = 9 ∨ m = 11 then 30
  else 31

/-- `datetime.date` component validation (`MINYEAR = 1`, `MAXYEAR = 9999`). -/
def validDate (y m d : Nat) : Bool :=
  1 ≤ y && y ≤ 9999 && 1 ≤ m && m ≤ 12 && 1 ≤ d && d ≤ daysInMonth y m

/-- `datetime.time` component validation. -/
def validTime (h mi s : Nat) : Bool := h ≤ 23 && mi ≤ 59 && s ≤ 59

/-- A `datetime.datetime` value (naive, second precision — the precision
`format_date` manipulates). -/
structure DateTime where
  year : Nat
  month : Nat
  day : Nat
  hour : Nat := 0
  minute : Nat := 0
  second : Nat := 0
  deriving Repr, DecidableEq

/-- Whether `datetime(year, month, day, hour, minute, second)` succeeds. -/
def validDT (t : DateTime) : Bool :=
  validDate t.year t.month t.day && validTime t.hour t.minute t.second

/-- Number of leap years in `1..n`. -/
def leapsBefore : Nat → Nat
  | 0 => 0
  | n + 1 => leapsBefore n + (if isLeap (n + 1) then 1 else 0)

/-- Days strictly before January 1st of year `y` (year 1 is day 0). -/
def daysBeforeYear (y : Nat) : Nat := 365 * (y - 1) + leapsBefore (y - 1)

/-- Length of year `y` in days. -/
def daysInYear (y : Nat) : Nat := if isLeap y then 366 else 365

/-- Days in year `y` strictly before the first day of month `m`. -/
def daysBeforeMonth (y : Nat) : Nat → Nat
  | 0 => 0
  | 1 => 0
  | Nat.succ (Nat.succ m) => daysBeforeMonth y (m + 1) + daysInMonth y (m + 1)

/-- Day ordinal of a datetime (proleptic Gregorian). -/
def toOrdinal (t : DateTime) : Nat :=
  daysBeforeYear t.year + daysBeforeMonth t.year t.month + (t.day - 1)

/-- Seconds on the timeline; `a < b - timedelta(days=n)` is
`(toSecs a : Int) < toSecs b - n * 86400`. -/
def toSecs (t : DateTime) : Nat :=
  toOrdinal t * 86400 + t.hour * 3600 + t.minute * 60 + t.second

/-- Python `f"{n:0wd}"` for natural `n`. -/
def padNum (w : Nat) (n : Nat) : String :=
  let s := toString n
  if s.length < w then String.mk (List.replicate (w - s.length) '0') ++ s else s

/-- The final formatting of `format_date` (dict branch): with a `T...` time
part exactly when the dict carried an `hour` key. -/
def renderIso (y m d : Nat) (hour : Option Nat) (mi se : Nat) : String :=
  match hour with
  | some h =>
    padNum 4 y ++ "-" ++ padNum 2 m ++ "-" ++ padNum 2 d ++ "T"
      ++ padNum 2 h ++ ":" ++ padNum 2 mi ++ ":" ++ padNum 2 se
  | none => padNum 4 y ++ "-" ++ padNum 2 m ++ "-" ++ padNum 2 d

/-- The field-set accepted by the dict branch of `format_date`; values are
naturals (the JSON-shaped model output), with `datetime`'s `ValueError` on
out-of-range components modelled by `validDT`. -/
structure PyDateDict where
  year : Option Nat := none
  month : Option Nat := none
  day : Option Nat := none
  hour : Option Nat := none
  minute : Option Nat := none
  second : Option Nat := none
  deriving Repr, DecidableEq

/-- `format_date` returns either a formatted string or its argument
unchanged. -/
inductive FormatDateResult where
  | str (s : String)
  | unchanged
  deriving Repr, DecidableEq

/-- The year finally used by the dict branch of `format_date`, linearizing
the `try`/`except ValueError` flow of lines 38-65: if the initial
`datetime(...)` raises, `year` is unchanged; otherwise if the date is more
than 365 days in the past, `year` becomes `now.year`, and if the candidate
with the current year is itself constructible and more than 30 days in the
past, `now.year + 1`; if the candidate construction raises, the already
assigned `now.year` survives the `except`. -/
def repairedYear (y0 m d hr mi se : Nat) (now : DateTime) : Nat :=
  if validDT ⟨y0, m, d, hr, mi, se⟩ then
    if (toSecs ⟨y0, m, d, hr, mi, se⟩ : Int) < (toSecs now : Int) - 365 * 86400 then
      if validDT ⟨now.year, m, d, hr, mi, se⟩ then
        if (toSecs ⟨now.year, m, d, hr, mi, se⟩ : Int) < (toSecs now : Int) - 30 * 86400 then
          now.year + 1
        else now.year
      else now.year
    else y0
  else y0

/-- Embedding of `PageDateService.format_date` on field-sets (the dict
branch): `date_obj.get` defaults are month/day 1, minute/second 0, `hour`
`None`-sensitive; a falsy year (absent or 0) falls through and returns the
input unchanged. -/
def formatDateDict (dd : PyDateDict) (now : DateTime) : FormatDateResult :=
  match dd.year with
  | none => .unchanged
  | some y0 =>
    if y0 = 0 then .unchanged
    else
      let m := dd.month.getD 1
      let d := dd.day.getD 1
      let hr := dd.hour.getD 0
      let mi := dd.minute.getD 0
      let se := dd.second.getD 0
      .str (renderIso (repairedYear y0 m d hr mi se now) m d dd.hour mi se)

/-! ### JSON (Python `json.loads`, used by `OllamaClient`)

A strict RFC-8259 parser modelling `json.loads` on the inputs relevant
here: object member order is kept (later duplicate keys override on
lookup, as in a Python dict), numbers keep their lexeme (their numeric
value is never consulted by this repository). -/

inductive PyJson where
  | null
  | bool (b : Bool)
  | num (lexeme : String)
  | str (s : String)
  | arr (items : List PyJson)
  | obj (members : List (String × PyJson))

/-- JSON whitespace skipping (space, tab, newline, carriage return). -/
def skipJWs (l : List Char) : List Char :=
  l.dropWhile fun c => c = ' ' ∨ c = '\t' ∨ c = '\n' ∨ c = '\r'

/-- Hex digit value. -/
def hexVal (c : Char) : Option Nat :=
  if '0' ≤ c ∧ c ≤ '9' then some (c.toNat - 48)
  else if 'a' ≤ c ∧ c ≤ 'f' then some (c.toNat - 87)
  else if 'A' ≤ c ∧ c ≤ 'F' then some (c.toNat - 70)
  else none

/-- Parse the remainder of a JSON string literal (after the opening quote):
escapes are decoded, unescaped control characters are rejected (strict
mode).  Returns the decoded string and the input after the closing quote. -/
def parseJStr (acc : List Char) : List Char → Except String (String × List Char)
  | [] => .error "Unterminated string"
  | c :: t =>
    if c = '"' then .ok (String.mk acc.reverse, t)
    else if c = '\\' then
      match t with
      | [] => .error "Unterminated string"
      | e :: t2 =>
        if e = '"' then parseJStr ('"' :: acc) t2
        else if e = '\\' then parseJStr ('\\' :: acc) t2
        else if e = '/' then parseJStr ('/' :: acc) t2
        else if e = 'b' then parseJStr (Char.ofNat 8 :: acc) t2
        else if e = 'f' then parseJStr (Char.ofNat 12 :: acc) t2
        else if e = 'n' then parseJStr ('\n' :: acc) t2
        else if e = 'r' then parseJStr ('\r' :: acc) t2
        else if e = 't' then parseJStr ('\t' :: acc) t2
        else if e = 'u' then
          match t2 with
          | h1 :: h2 :: h3 :: h4 :: t3 =>
            match hexVal h1, hexVal h2, hexVal h3, hexVal h4 with
            | some v1, some v2, some v3, some v4 =>
              parseJStr (Char.ofNat (v1 * 4096 + v2 * 256 + v3 * 16 + v4) :: acc) t3
            | _, _, _, _ => .error "Invalid hex escape"
          | _ => .error "Invalid hex escape"
        else .error "Invalid escape"
    else if c.toNat < 32 then .error "Invalid control character"
    else parseJStr (c :: acc) t

/-- Parse a JSON number lexeme `-?(0|[1-9][0-9]*)(\.[0-9]+)?([eE][-+]?[0-9]+)?`. -/
def parseJNum (l : List Char) : Except String (PyJson × List Char) :=
  let (sign, l1) := match l with
    | '-' :: t => (['-'], t)
    | _ => (([] : List Char), l)
  let ds := l1.takeWhile Char.isDigit
  if ds = [] then .error "Expecting value"
  else if ds.length > 1 ∧ ds.headD '0' = '0' then .error "Expecting value"
  else
    let l2 := l1.dropWhile Char.isDigit
    let (fracPart, l3) : List Char × List Char := match l2 with
      | '.' :: t =>
        let fs := t.takeWhile Char.isDigit
        if fs = [] then ([], l2) else ('.' :: fs, t.dropWhile Char.isDigit)
      | _ => ([], l2)
    let (expPart, l4) : List Char × List Char := match l3 with
      | e :: t =>
        if e = 'e' ∨ e = 'E' then
          let (es, t2) : List Char × List Char := match t with
            | s :: t3 => if s = '+' ∨ s = '-' then ([e, s], t3) else ([e], t)
            | [] => ([e], t)
          let xs := t2.takeWhile Char.isDigit
          if xs = [] then ([], l3) else (es ++ xs, t2.dropWhile Char.isDigit)
        else ([], l3)
      | [] => ([], l3)
    .ok (.num (String.mk (sign ++ ds ++ fracPart ++ expPart)), l4)

mutual

/-- Parse one JSON value at the head of the input. -/
def parseJValue : Nat → List Char → Except String (PyJson × List Char)
  | 0, _ => .error "Too deeply nested"
  | Nat.succ fuel, l =>
    match l with
    | [] => .error "Expecting value"
    | c :: t =>
      if c = 't' then
        if leadsWith ['r', 'u', 'e'] t then .ok (.bool true, t.drop 3)
        else .error "Expecting value"
      else if c = 'f' then
        if leadsWith ['a', 'l', 's', 'e'] t then .ok (.bool false, t.drop 4)
        else .error "Expecting value"
      else if c = 'n' then
        if leadsWith ['u', 'l', 'l'] t then .ok (.null, t.drop 3)
        else .error "Expecting value"
      else if c = '"' then
        match parseJStr [] t with
        | .error e => .error e
        | .ok (s, rest) => .ok (.str s, rest)
      else if c = '\x7b' then
        match skipJWs t with
        | '\x7d' :: t2 => .ok (.obj [], t2)
        | t1 => parseJMembers fuel t1 []
      else if c = '[' then
        match skipJWs t with
        | ']' :: t2 => .ok (.arr [], t2)
        | t1 => parseJElems fuel t1 []
      else parseJNum l

/-- Parse the members of a JSON object (after `{` and leading whitespace,
first member expected). -/
def parseJMembers : Nat → List Char → List (String × PyJson) →
    Except String (PyJson × List Char)
  | 0, _, _ => .error "Too deeply nested"
  | Nat.succ fuel, l, acc =>
    match l with
    | '"' :: t =>
      match parseJStr [] t with
      | .error e => .error e
      | .ok (key, r1) =>
        match skipJWs r1 with
        | ':' :: r3 =>
          match parseJValue fuel (skipJWs r3) with
          | .error e => .error e
          | .ok (v, r4) =>
            match skipJWs r4 with
            | ',' :: r6 => parseJMembers fuel (skipJWs r6) (acc ++ [(key, v)])
            | '\x7d' :: r6 => .ok (.obj (acc ++ [(key, v)]), r6)
            | _ => .error "Expecting delimiter"
        | _ => .error "Expecting colon"
    | _ => .error "Expecting property name"

/-- Parse the elements of a JSON array (after `[` and leading whitespace,
first element expected). -/
def parseJElems : Nat → List Char → List PyJson → Except String (PyJson × List Char)
  | 0, _, _ => .error "Too deeply nested"
  | Nat.succ fuel, l, acc =>
    match parseJValue fuel l with
    | .error e => .error e
    | .ok (v, r1) =>
      match skipJWs r1 with
      | ',' :: r2 => parseJElems fuel (skipJWs r2) (acc ++ [v])
      | ']' :: r2 => .ok (.arr (acc ++ [v]), r2)
      | _ => .error "Expecting delimiter"

end

/-- `json.loads`: a single value, surrounding whitespace allowed, anything
further is "Extra data". -/
def parseJson (s : String) : Except String PyJson :=
  match parseJValue (s.data.length + 1) (skipJWs s.data) with
  | .error e => .error e
  | .ok (v, rest) => if skipJWs rest = [] then .ok v else .error "Extra data"

/-- Python dict lookup built from pairs in insertion order: a later duplicate
key overrides an earlier one. -/
def pyDictGet (kvs : List (String × PyJson)) (k : String) : Option PyJson :=
  match kvs.reverse.find? (fun p => p.1 = k) with
  | some p => some p.2
  | none => none

/-! ### Ollama client (app/clients/ollama_client.py) -/

/-- The exceptions the client code can raise or propagate. -/
inductive PyErr where
  | requests (msg : String)
  | valueError (msg : String)
  | keyError (k : String)
  | typeError
  | attributeError
  deriving Repr, DecidableEq

/-- Python `obj[key]`: dict lookup (`KeyError` when missing), `TypeError`
on non-dict values. -/
def jsonIndex (j : PyJson) (k : String) : Except PyErr PyJson :=
  match j with
  | .obj kvs =>
    match pyDictGet kvs k with
    | some v => .ok v
    | none => .error (.keyError k)
  | _ => .error .typeError

/-- Embedding of `OllamaClient.chat_is_event` from the outbound call on:
`post` is the result of `requests.post(...)` together with reading the
response body (an `Except` because the call can raise — there is no
`try`/`except` in the method, so any error propagates).  On success the
body is JSON-decoded (`resp.json()`, `ValueError` on malformed bodies),
indexed with `["message"]["content"]`, stripped, lower-cased and compared
with `"true"`. -/
def chatIsEvent (post : Except PyErr String) : Except PyErr Bool :=
  match post with
  | .error e => .error e
  | .ok body =>
    match parseJson body with
    | .error m => .error (.valueError m)
    | .ok j =>
      match jsonIndex j "message" with
      | .error e => .error e
      | .ok msg =>
        match jsonIndex msg "content" with
        | .error e => .error e
        | .ok content =>
          match content with
          | .str s => .ok (pyLower (pyStrip s) == "true")
          | _ => .error .attributeError

/-- The `Event(...)` payload built by `chat_page_extract`: the model's JSON
values flow in untyped, `url` is forced to the page's own URL, `title`/
`start` mirror `summary`/`dtstart`, `raw` keeps the whole (stripped)
response. -/
structure OllamaExtract where
  dtstart : Option PyJson
  dtend : Option PyJson
  duration : Option PyJson
  summary : Option PyJson
  description : Option PyJson
  location : Option PyJson
  url : Option String
  categories : PyJson
  rrule : Option PyJson
  title : Option PyJson
  start : Option PyJson
  raw : String

/-- First index of a character (Python `str.find`, `none` for -1). -/
def findIdxChar (c : Char) (l : List Char) : Option Nat :=
  l.findIdx? (fun x => x = c)

/-- Last index of a character (Python `str.rfind`, `none` for -1). -/
def rfindIdxChar (c : Char) (l : List Char) : Option Nat :=
  match (l.reverse.findIdx? (fun x => x = c)) with
  | some i => some (l.length - 1 - i)
  | none => none

/-- Embedding of `OllamaClient.chat_page_extract` from the decoded response
body on (`content` is `resp.json()["message"]["content"].strip()`): locate
the first `x7b` and last `x7d` brace, return `None` when no well-formed span
exists, otherwise `json.loads` the span — a decode failure RAISES
(`json.loads` is outside the `try`), while the `try` around `Event(...)`
only catches failures of the construction itself (`data.get` on a non-dict
raising `AttributeError`), which yield `None`. -/
def chatPageExtract (content : String) (page_url : Option String) :
    Except PyErr (Option OllamaExtract) :=
  let c := pyStrip content
  let ls := c.data
  match findIdxChar '\x7b' ls, rfindIdxChar '\x7d' ls with
  | some si, some ei =>
    if ei ≤ si then .ok none
    else
      match parseJson (String.mk ((ls.drop si).take (ei + 1 - si))) with
      | .error m => .error (.valueError m)
      | .ok data =>
        match data with
        | .obj kvs =>
          .ok (some {
            dtstart := pyDictGet kvs "dtstart"
            dtend := pyDictGet kvs "dtend"
            duration := pyDictGet kvs "duration"
            summary := pyDictGet kvs "summary"
            description := pyDictGet kvs "description"
            location := pyDictGet kvs "location"
            url := page_url
            categories := (pyDictGet kvs "categories").getD (.arr [])
            rrule := pyDictGet kvs "rrule"
            title := pyDictGet kvs "summary"
            start := pyDictGet kvs "dtstart"
            raw := c })
        | _ => .ok none
  | _, _ => .ok none

/-! ### Heuristic extractor (app/services/page_event_extractor.py)

The regex searches (`VEVENT_RE.finditer`, `FIELD_RE.findall`,
`DATE_LINE_RE.search`, `TIME_RE.search`) and the dateutil parse are external
primitives, passed in as function parameters; the theorems below hold for
every behaviour of these parameters. -/

/-- The external primitives `extract_events` relies on: `vb text` lists the
`group(1)` captures of `VEVENT_RE.finditer`; `fp block` lists the
`(key, value)` pairs of `FIELD_RE.findall`; `dls line` / `ts line` are the
`group(0)` of `DATE_LINE_RE.search` / `TIME_RE.search` (or `none`); `dp s`
is `dateutil.parser.parse(s, fuzzy=True).isoformat()` (or `none` for an
exception / falsy result). -/
structure ExtractorPrims where
  vb : String → List String
  fp : String → List (String × String)
  dls : String → Option String
  ts : String → Option String
  dp : String → Option String

/-- Embedding of `PageEventExtractor._try_parse_datetime`: falsy input gives
`None`, otherwise the (oracle) dateutil parse. -/
def tryParseDatetime (prims : ExtractorPrims) (text : Option String) : Option String :=
  if pyTruthy text = false then none else prims.dp (text.getD "")

/-- Python `a or b` where `b` is a plain string. -/
def pyOrStr (a : Option String) (b : String) : String :=
  if pyTruthy a then a.getD "" else b

/-- `int(s)` with the surrounding `try`: whitespace-stripped optional-sign
digit string, `none` (caught exception) otherwise. -/
def pyInt (s : String) : Option Int :=
  let t := pyStrip s
  match t.data with
  | '-' :: ds => if ds ≠ [] ∧ ds.all Char.isDigit then some (-(natOfDigits ds : Int)) else none
  | '+' :: ds => if ds ≠ [] ∧ ds.all Char.isDigit then some (natOfDigits ds : Int) else none
  | ds => if ds ≠ [] ∧ ds.all Char.isDigit then some (natOfDigits ds : Int) else none

/-- Python `str.splitlines()` (on the `\n`, `\r\n`, `\r` terminators). -/
def pySplitlinesAux (acc : List Char) : List Char → List String
  | [] => if acc = [] then [] else [String.mk acc.reverse]
  | '\r' :: '\n' :: t => String.mk acc.reverse :: pySplitlinesAux [] t
  | '\r' :: t => String.mk acc.reverse :: pySplitlinesAux [] t
  | '\n' :: t => String.mk acc.reverse :: pySplitlinesAux [] t
  | c :: t => pySplitlinesAux (c :: acc) t

/-- `text.splitlines()`. -/
def pySplitlines (s : String) : List String := pySplitlinesAux [] s.data

/-- One event of the VEVENT-block path (lines 42-109): `entries` is the
multi-valued map keyed by upper-cased field name with stripped values;
`single` takes the first value; `title`/`start` are assigned the same
`summary`/`dtstart` the constructor received. -/
def veventBlockEvent (prims : ExtractorPrims) (page_url : Option String)
    (block : String) : Event :=
  let found := prims.fp block
  let entries : String → List String := fun k =>
    (found.filter (fun p => pyUpper p.1 = k)).map (fun p => pyStrip p.2)
  let single : String → Option String := fun k => (entries k).head?
  let dtstart_raw := single "DTSTART"
  let dtstart := pyOrOpt (tryParseDatetime prims dtstart_raw) dtstart_raw
  let dtend_raw := single "DTEND"
  let summary := single "SUMMARY"
  { uid := single "UID"
    dtstamp := tryParseDatetime prims (single "DTSTAMP")
    dtstart := dtstart
    dtend := pyOrOpt (tryParseDatetime prims dtend_raw) dtend_raw
    duration := single "DURATION"
    summary := summary
    description := single "DESCRIPTION"
    location := single "LOCATION"
    url := pyOrOpt (single "URL") page_url
    categories := entries "CATEGORIES"
    status := single "STATUS"
    sequence := match single "SEQUENCE" with
      | some v => pyInt v
      | none => none
    created := tryParseDatetime prims (single "CREATED")
    last_modified := tryParseDatetime prims (single "LAST-MODIFIED")
    organizer := single "ORGANIZER"
    attendees := entries "ATTENDEE"
    rrule := single "RRULE"
    rdate := entries "RDATE"
    exdate := entries "EXDATE"
    raw := some (pyStrip block)
    title := summary
    start := dtstart }

/-- One event of the date-line path (lines 116-150), for line index `i` in
the stripped non-empty `lines`. -/
def dateLineEvent (prims : ExtractorPrims) (page_url : Option String)
    (lines : List String) (i : Nat) (line : String) : Event :=
  let title := if 0 < i then lines.get? (i - 1) else none
  let desc_lines := (lines.drop (i + 1)).take 3
  let description :=
    if desc_lines ≠ [] then some (String.intercalate "\n" desc_lines) else none
  let date_match := prims.dls line
  let time_match := prims.ts line
  let candidate : Option String :=
    match date_match, time_match with
    | some d, some tm => some (d ++ " " ++ tm)
    | some d, none => some d
    | none, some tm => some tm
    | none, none => none
  let start_iso0 :=
    if pyTruthy candidate then tryParseDatetime prims candidate else none
  let start_iso :=
    if pyTruthy start_iso0 = false then tryParseDatetime prims (some line)
    else start_iso0
  let dtstart := some (pyOrStr start_iso (pyOrStr candidate line))
  { summary := title
    dtstart := dtstart
    description := description
    raw := some line
    url := page_url
    title := title
    start := dtstart }

/-- Embedding of `PageEventExtractor.extract_events`: the VEVENT-block path
if any block matched, otherwise one candidate per date-bearing line. -/
def extractEvents (prims : ExtractorPrims) (text : Option String)
    (page_url : Option String) : List Event :=
  if pyTruthy text = false then []
  else
    let t := text.getD ""
    let vevents := (prims.vb t).map (veventBlockEvent prims page_url)
    if vevents ≠ [] then vevents
    else
      let lines := ((pySplitlines t).map pyStrip).filter (fun s => s ≠ "")
      lines.enum.filterMap fun p =>
        if (prims.dls p.2).isSome then
          some (dateLineEvent prims page_url lines p.1 p.2)
        else none


/-! ## Theorems -/

/-! ### Claim C4 — format_rrule hallucination filter -/

/-- Claim C4 counterexample: with freq DAILY and the interval ABSENT,
`format_rrule` does not discard the rule (the filter tests `interval == 1`,
and `None == 1` is false in Python); it returns "FREQ=DAILY", not none as
the claim states for an absent interval. -/
theorem format_rrule_absent_interval_not_filtered :
    formatRRule { freq := some "DAILY" } = some "FREQ=DAILY" := by decide

/-- Claim C4 (amended): if freq is DAILY or WEEKLY, interval is EXACTLY 1
(an absent interval does not trigger the filter), and neither count nor
until is given, `format_rrule` returns none; `{freq: DAILY, interval: 1}`
maps to none and `{freq: WEEKLY, interval: 1, count: 5}` maps to a string
containing `COUNT=5`. -/
theorem format_rrule_hallucination_filter :
    (∀ r : RRuleDict,
      (pyUpper (r.freq.getD "") = "DAILY" ∨ pyUpper (r.freq.getD "") = "WEEKLY") →
      r.interval = some 1 → pyTruthyInt r.count = false → pyTruthy r.until_ = false →
      formatRRule r = none)
    ∧ formatRRule { freq := some "DAILY", interval := some 1 } = none
    ∧ formatRRule { freq := some "WEEKLY", interval := some 1, count := some 5 }
        = some "FREQ=WEEKLY;COUNT=5" := by
  refine ⟨?_, by decide, by decide⟩
  intro r h1 h2 h3 h4
  unfold formatRRule
  rw [if_pos ⟨h1, h2, h3, h4⟩]

/-- Concrete application of the amended C4 theorem: a lower-case "weekly"
rule with interval exactly 1 and no end condition is filtered out. -/
theorem format_rrule_hallucination_filter_witness :
    formatRRule { freq := some "Weekly", interval := some 1 } = none :=
  format_rrule_hallucination_filter.1
    { freq := some "Weekly", interval := some 1 }
    (by decide) rfl (by decide) (by decide)

/-! ### Claim C5 — validity gate -/

/-- Claim C5: `_is_valid_event` is false for an absent candidate, a missing
title, or a missing start; with both present it is true exactly when a
location is present or the description reaches the 40-character minimum; in
particular a 5-character description without location is invalid and a
45-character description is valid. -/
theorem is_valid_event_characterization :
    isValidEvent none = false
    ∧ (∀ e : Event, e.title = none → isValidEvent (some e) = false)
    ∧ (∀ e : Event, e.start = none → isValidEvent (some e) = false)
    ∧ (∀ e : Event, e.title ≠ none → e.start ≠ none →
        (isValidEvent (some e) = true ↔
          e.location ≠ none ∨ ∃ d, e.description = some d ∧ minDescriptionLength ≤ d.length))
    ∧ (∀ (e : Event) (d : String), e.title ≠ none → e.start ≠ none → e.location = none →
        e.description = some d → d.length = 5 → isValidEvent (some e) = false)
    ∧ (∀ (e : Event) (d : String), e.title ≠ none → e.start ≠ none →
        e.description = some d → d.length = 45 → isValidEvent (some e) = true) := by
  have hchar : ∀ e : Event, e.title ≠ none → e.start ≠ none →
      (isValidEvent (some e) = true ↔
        e.location ≠ none ∨ ∃ d, e.description = some d ∧ minDescriptionLength ≤ d.length) := by
    intro e ht hs
    cases hdesc : e.description with
    | none => simp [isValidEvent, ht, hs, hdesc]
    | some d => simp [isValidEvent, ht, hs, hdesc]
  refine ⟨rfl, ?_, ?_, hchar, ?_, ?_⟩
  · intro e ht
    simp [isValidEvent, ht]
  · intro e hs
    simp [isValidEvent, hs]
  · intro e d ht hs hl hdesc hlen
    rcases h : isValidEvent (some e) with _ | _
    · rfl
    · exfalso
      rcases (hchar e ht hs).mp h with hloc | ⟨d2, hd2, hlen2⟩
      · exact hloc hl
      · rw [hdesc] at hd2
        cases hd2
        unfold minDescriptionLength at hlen2
        omega
  · intro e d ht hs hdesc hlen
    refine (hchar e ht hs).mpr (Or.inr ⟨d, hdesc, ?_⟩)
    unfold minDescriptionLength
    omega

/-- Concrete application of the C5 theorem: title+start with a 45-character
description and no location is valid. -/
theorem is_valid_event_characterization_witness :
    isValidEvent (some
      { title := some "T"
        start := some "2026-01-10"
        description := some "A forty-five character description string...." }) = true :=
  is_valid_event_characterization.2.2.2.2.2
    { title := some "T"
      start := some "2026-01-10"
      description := some "A forty-five character description string...." }
    "A forty-five character description string...."
    (by simp) (by simp) rfl (by decide)

/-! ### Claim C6 — fingerprint determinism -/

/-- Claim C6: the content fingerprint is a function of the ordered tuple
(title, start, dtstart, summary, location, url) alone: two candidates
agreeing on those six fields hash identically, whatever their other fields
(categories, raw payload, ...) contain. -/
theorem compute_hash_deterministic (e1 e2 : Event)
    (ht : e1.title = e2.title) (hs : e1.start = e2.start)
    (hd : e1.dtstart = e2.dtstart) (hsum : e1.summary = e2.summary)
    (hl : e1.location = e2.location) (hu : e1.url = e2.url) :
    computeHash e1 = computeHash e2 := by
  unfold computeHash hashContent
  rw [ht, hs, hd, hsum, hl, hu]

/-- Concrete application of the C6 theorem: same six fields, different
categories, raw payload and description — same token. -/
theorem compute_hash_deterministic_witness :
    computeHash
      { title := some "T"
        start := some "2026-01-10"
        dtstart := some "2026-01-10"
        summary := some "T"
        location := some "L"
        url := some "http://a"
        categories := ["music"]
        raw := some "payload one" }
    = computeHash
      { title := some "T"
        start := some "2026-01-10"
        dtstart := some "2026-01-10"
        summary := some "T"
        location := some "L"
        url := some "http://a"
        categories := ["sports", "misc"]
        raw := none
        description := some "other" } :=
  compute_hash_deterministic _ _ rfl rfl rfl rfl rfl rfl

/-! ### Claim C7 — normalize_duration -/

/-- Claim C7 counterexample: a string already beginning with "PT" is NOT
passed through upper-cased — the nullable findall pattern always yields a
(possibly empty) first match, so the passthrough branch is unreachable and
"PT1H" normalizes to none. -/
theorem normalize_duration_pt_not_passthrough :
    normalizeDuration (.str "PT1H") = none := by decide

/-- Claim C7 (amended): integer seconds and compact strings normalize to
RFC5545 DURATION tokens (`3600 → "PT1H"`, `"1h 30m" → "PT1H30M"`); when the
d/h/m/s scan recognizes nothing (zero total seconds) the result is none —
including for strings beginning with P/PT, which are scanned like any other
string rather than passed through. -/
theorem normalize_duration_amended :
    normalizeDuration (.int 3600) = some "PT1H"
    ∧ normalizeDuration (.str "1h 30m") = some "PT1H30M"
    ∧ (∀ s : String, strDurationSecs s = 0 → normalizeDuration (.str s) = none) := by
  refine ⟨by decide, by decide, ?_⟩
  intro s h
  show buildDuration (strDurationSecs s) = none
  rw [h]
  decide

/-- Concrete application of the amended C7 theorem: a string with no
recognizable duration component yields none. -/
theorem normalize_duration_amended_witness :
    normalizeDuration (.str "soon-ish") = none :=
  normalize_duration_amended.2.2 "soon-ish" (by decide)

/-! ### Claim C8 — formatter escaping vs normalize_text -/

theorem pyReplace1_append (c : Char) (r : List Char) (a b : List Char) :
    pyReplace1 c r (a ++ b) = pyReplace1 c r a ++ pyReplace1 c r b := by
  simp [pyReplace1]

theorem descEscapeChars_cons (x : Char) (t : List Char) :
    descEscapeChars (x :: t) = descEscapeChars [x] ++ descEscapeChars t := by
  show descEscapeChars ([x] ++ t) = _
  simp only [descEscapeChars, pyReplace1_append]

theorem normalizeTextChars_cons (x : Char) (t : List Char) :
    normalizeTextChars (x :: t) = normalizeTextChars [x] ++ normalizeTextChars t := by
  show normalizeTextChars ([x] ++ t) = _
  simp only [normalizeTextChars, pyReplace1_append]

theorem escape_single_char (x : Char) : descEscapeChars [x] = normalizeTextChars [x] := by
  by_cases h1 : x = '\\'
  · subst h1; rfl
  by_cases h2 : x = '\n'
  · subst h2; rfl
  by_cases h3 : x = ','
  · subst h3; rfl
  by_cases h4 : x = ';'
  · subst h4; rfl
  simp [descEscapeChars, normalizeTextChars, pyReplace1, h1, h2, h3, h4]

theorem descEscapeChars_eq (l : List Char) : descEscapeChars l = normalizeTextChars l := by
  induction l with
  | nil => rfl
  | cons x t ih => rw [descEscapeChars_cons, normalizeTextChars_cons, ih, escape_single_char]

/-- Claim C8: the DESCRIPTION escaping inlined in `format_ical` (backslash,
comma, semicolon, newline — in that order) and `normalize_text` (backslash,
newline, comma, semicolon) are equal as functions on strings. -/
theorem desc_escape_eq_normalize_text (s : String) : descEscape s = normalizeText s := by
  unfold descEscape normalizeText
  rw [descEscapeChars_eq]

/-! ### Claim C2 — model-backed classifier error behaviour -/

/-- Claim C2 counterexample: a transport error from `requests.post`
propagates out of `chat_is_event` (there is no `try`/`except` in the
method) instead of yielding `false` as the claim states. -/
theorem chat_is_event_raises_on_transport_error :
    chatIsEvent (Except.error (PyErr.requests "ConnectTimeout"))
        = Except.error (PyErr.requests "ConnectTimeout")
    ∧ chatIsEvent (Except.error (PyErr.requests "ConnectTimeout"))
        ≠ Except.ok false := by
  refine ⟨rfl, ?_⟩
  intro h
  cases h

/-- Claim C2 (amended): when the outbound call and the
`resp.json()["message"]["content"]` chain succeed with a string content,
`chat_is_event` returns true exactly when the content, trimmed and
lower-cased, is the literal "true"; but transport errors and JSON-decode
failures PROPAGATE as exceptions rather than yielding false. -/
theorem chat_is_event_behaviour :
    (∀ e, chatIsEvent (Except.error e) = Except.error e)
    ∧ (∀ (body s : String) (j msg : PyJson),
        parseJson body = Except.ok j →
        jsonIndex j "message" = Except.ok msg →
        jsonIndex msg "content" = Except.ok (PyJson.str s) →
        chatIsEvent (Except.ok body) = Except.ok (pyLower (pyStrip s) == "true"))
    ∧ (∀ (body m : String), parseJson body = Except.error m →
        chatIsEvent (Except.ok body) = Except.error (PyErr.valueError m)) := by
  refine ⟨fun e => rfl, ?_, ?_⟩
  · intro body s j msg h1 h2 h3
    simp only [chatIsEvent, h1, h2, h3]
  · intro body m h
    simp only [chatIsEvent, h]

/-- Concrete application of the amended C2 theorem: a successful response
whose content is " True " classifies as true. -/
theorem chat_is_event_behaviour_witness :
    chatIsEvent (Except.ok "\x7b\"message\": \x7b\"content\": \" True \"\x7d\x7d")
      = Except.ok true := by
  have h := chat_is_event_behaviour.2.1
    "\x7b\"message\": \x7b\"content\": \" True \"\x7d\x7d" " True "
    (PyJson.obj [("message", PyJson.obj [("content", PyJson.str " True ")])])
    (PyJson.obj [("content", PyJson.str " True ")])
    rfl rfl rfl
  rw [h]
  rfl

/-! ### Claim C3 — extraction strategy error behaviour -/

/-- Claim C3 counterexample: a brace span that fails to JSON-decode makes
`chat_page_extract` RAISE (`json.loads` at line 128 is outside the `try`)
rather than return "no candidate". -/
theorem chat_page_extract_raises_on_bad_json :
    chatPageExtract "\x7boops\x7d" none
        = Except.error (PyErr.valueError "Expecting property name")
    ∧ chatPageExtract "\x7boops\x7d" none ≠ Except.ok none := by
  refine ⟨rfl, ?_⟩
  intro h
  cases h

/-- Claim C3 (amended): when no well-formed first-brace/last-brace span
exists the result is "no candidate" (none) without error; but when a span
exists and JSON-decoding it fails, the `JSONDecodeError` propagates to the
caller instead of yielding none. -/
theorem chat_page_extract_behaviour :
    (∀ (content : String) (u : Option String),
      findIdxChar '\x7b' (pyStrip content).data = none →
      chatPageExtract content u = Except.ok none)
    ∧ (∀ (content : String) (u : Option String),
      rfindIdxChar '\x7d' (pyStrip content).data = none →
      chatPageExtract content u = Except.ok none)
    ∧ (∀ (content : String) (u : Option String) (si ei : Nat),
      findIdxChar '\x7b' (pyStrip content).data = some si →
      rfindIdxChar '\x7d' (pyStrip content).data = some ei →
      ei ≤ si →
      chatPageExtract content u = Except.ok none)
    ∧ (∀ (content : String) (u : Option String) (si ei : Nat) (m : String),
      findIdxChar '\x7b' (pyStrip content).data = some si →
      rfindIdxChar '\x7d' (pyStrip content).data = some ei →
      ¬ ei ≤ si →
      parseJson (String.mk (((pyStrip content).data.drop si).take (ei + 1 - si)))
        = Except.error m →
      chatPageExtract content u = Except.error (PyErr.valueError m)) := by
  refine ⟨?_, ?_, ?_, ?_⟩
  · intro content u h
    simp only [chatPageExtract, h]
  · intro content u h
    simp only [chatPageExtract, h]
    cases findIdxChar '\x7b' (pyStrip content).data <;> rfl
  · intro content u si ei h1 h2 hle
    simp only [chatPageExtract, h1, h2]
    rw [if_pos hle]
  · intro content u si ei m h1 h2 hgt hp
    simp only [chatPageExtract, h1, h2]
    rw [if_neg hgt]
    rw [hp]

/-- Concrete application of the amended C3 theorem: malformed JSON between
the braces of a commented response raises a decode error. -/
theorem chat_page_extract_behaviour_witness :
    chatPageExtract "reply: \x7bnot json\x7d end" none
      = Except.error (PyErr.valueError "Expecting property name") := by
  have h := chat_page_extract_behaviour.2.2.2
    "reply: \x7bnot json\x7d end" none 7 16 "Expecting property name"
    rfl rfl (by decide) rfl
  exact h

/-! ### Claim C10 — extractor alias invariant -/

/-- Claim C10: every candidate produced by `extract_events` — via the
VEVENT-block path or the date-line path, and for every behaviour of the
regex/dateutil primitives — satisfies `title = summary` and
`start = dtstart`, so the validity gate (reading title/start) and the
formatter (reading summary/dtstart) see the same values. -/
theorem extract_events_alias_invariant (prims : ExtractorPrims)
    (text page_url : Option String) (ev : Event)
    (hev : ev ∈ extractEvents prims text page_url) :
    ev.title = ev.summary ∧ ev.start = ev.dtstart := by
  unfold extractEvents at hev
  by_cases ht : pyTruthy text = false
  · rw [if_pos ht] at hev
    simp at hev
  · rw [if_neg ht] at hev
    by_cases hv : ((prims.vb (text.getD "")).map (veventBlockEvent prims page_url)) ≠ []
    · rw [if_pos hv] at hev
      obtain ⟨b, hb, rfl⟩ := List.mem_map.mp hev
      exact ⟨rfl, rfl⟩
    · rw [if_neg hv] at hev
      obtain ⟨⟨i, line⟩, hmem, hsome⟩ := List.mem_filterMap.mp hev
      by_cases hd : (prims.dls line).isSome
      · rw [if_pos hd] at hsome
        cases hsome
        exact ⟨rfl, rfl⟩
      · rw [if_neg hd] at hsome
        cases hsome

/-- Concrete application of the C10 theorem: with primitives that find no
VEVENT block, flag every line as date-bearing, and parse nothing, the page
"Fun Hike\nJan 10" yields candidates, and the invariant holds for the
first. -/
theorem extract_events_alias_invariant_witness :
    (dateLineEvent
        { vb := fun _ => [], fp := fun _ => [], dls := fun s => some s
          ts := fun _ => none, dp := fun _ => none }
        none ["Fun Hike", "Jan 10"] 0 "Fun Hike").title
      = (dateLineEvent
        { vb := fun _ => [], fp := fun _ => [], dls := fun s => some s
          ts := fun _ => none, dp := fun _ => none }
        none ["Fun Hike", "Jan 10"] 0 "Fun Hike").summary
    ∧ (dateLineEvent
        { vb := fun _ => [], fp := fun _ => [], dls := fun s => some s
          ts := fun _ => none, dp := fun _ => none }
        none ["Fun Hike", "Jan 10"] 0 "Fun Hike").start
      = (dateLineEvent
        { vb := fun _ => [], fp := fun _ => [], dls := fun s => some s
          ts := fun _ => none, dp := fun _ => none }
        none ["Fun Hike", "Jan 10"] 0 "Fun Hike").dtstart :=
  extract_events_alias_invariant
    { vb := fun _ => [], fp := fun _ => [], dls := fun s => some s
      ts := fun _ => none, dp := fun _ => none }
    (some "Fun Hike\nJan 10") none
    (dateLineEvent
      { vb := fun _ => [], fp := fun _ => [], dls := fun s => some s
        ts := fun _ => none, dp := fun _ => none }
      none ["Fun Hike", "Jan 10"] 0 "Fun Hike")
    (by decide)

/-! ### Claim C9 — fold_line unfolding-invertibility -/

theorem removeFold_cons_pat (t : List Char) :
    removeFold ('\r' :: '\n' :: ' ' :: t) = removeFold t := by
  rw [removeFold]
  simp

theorem removeFold_cons (a : Char) (t : List Char)
    (h : ¬(a = '\r' ∧ t.take 2 = ['\n', ' '])) :
    removeFold (a :: t) = a :: removeFold t := by
  rw [removeFold]
  rw [if_neg h]

theorem hasOccur_cons_parts (p : List Char) (a : Char) (t : List Char)
    (h : hasOccur p (a :: t) = false) :
    leadsWith p (a :: t) = false ∧ hasOccur p t = false := by
  have : (leadsWith p (a :: t) || hasOccur p t) = false := h
  simpa using this

theorem removeFold_id (l : List Char) (h : hasOccur foldPat l = false) :
    removeFold l = l := by
  induction l with
  | nil => rw [removeFold]
  | cons a t ih =>
    obtain ⟨hl, ht⟩ := hasOccur_cons_parts _ _ _ h
    have hcond : ¬(a = '\r' ∧ t.take 2 = ['\n', ' ']) := by
      rintro ⟨ha, htake⟩
      subst ha
      rcases t with _ | ⟨b, t1⟩
      · simp at htake
      rcases t1 with _ | ⟨d, t2⟩
      · simp at htake
      simp at htake
      obtain ⟨hb, hd⟩ := htake
      subst hb; subst hd
      simp [leadsWith, foldPat] at hl
    rw [removeFold_cons a t hcond, ih ht]

theorem removeFold_chunk (c r : List Char) (h : hasOccur foldPat c = false) :
    removeFold (c ++ foldPat ++ r) = c ++ removeFold r := by
  induction c with
  | nil =>
    show removeFold ('\r' :: '\n' :: ' ' :: r) = removeFold r
    exact removeFold_cons_pat r
  | cons a c2 ih =>
    obtain ⟨hl, hrest⟩ := hasOccur_cons_parts _ _ _ h
    have hshape : (a :: c2) ++ foldPat ++ r = a :: (c2 ++ foldPat ++ r) := by simp
    have hcond : ¬(a = '\r' ∧ (c2 ++ foldPat ++ r).take 2 = ['\n', ' ']) := by
      rintro ⟨ha, htake⟩
      subst ha
      rcases c2 with _ | ⟨b, c3⟩
      · simp [foldPat] at htake
      rcases c3 with _ | ⟨d, c4⟩
      · simp [foldPat] at htake
      · simp at htake
        obtain ⟨hb, hd⟩ := htake
        subst hb; subst hd
        simp [leadsWith, foldPat] at hl
    rw [hshape, removeFold_cons _ _ hcond, ih hrest]
    simp

theorem removeFold_joinSep (cs : List (List Char))
    (h : ∀ c ∈ cs, hasOccur foldPat c = false) :
    removeFold (joinSep foldPat cs) = cs.flatten := by
  induction cs with
  | nil => rw [joinSep]; rw [removeFold]; rfl
  | cons c cs2 ih =>
    rcases cs2 with _ | ⟨c2, cs3⟩
    · show removeFold c = List.flatten [c]
      rw [removeFold_id c (h c (by simp))]
      simp
    · show removeFold (c ++ foldPat ++ joinSep foldPat (c2 :: cs3)) = _
      rw [removeFold_chunk c _ (h c (by simp))]
      rw [ih (fun x hx => h x (by simp [hx]))]
      simp

theorem leadsWith_take (p : List Char) :
    ∀ (l : List Char) (k : Nat), leadsWith p (l.take k) = true → leadsWith p l = true := by
  induction p with
  | nil => intro l k _; rfl
  | cons a ps ih =>
    intro l k h
    cases l with
    | nil => cases k <;> simp [leadsWith] at h
    | cons b t =>
      cases k with
      | zero => simp [leadsWith] at h
      | succ k2 =>
        simp only [List.take, leadsWith, Bool.and_eq_true, decide_eq_true_eq] at h ⊢
        exact ⟨h.1, ih t k2 h.2⟩

theorem hasOccur_take (p : List Char) (hp : p ≠ []) :
    ∀ (l : List Char) (k : Nat), hasOccur p l = false → hasOccur p (l.take k) = false := by
  intro l
  induction l with
  | nil => intro k h; cases k <;> simpa using h
  | cons a t ih =>
    intro k h
    obtain ⟨hl, ht⟩ := hasOccur_cons_parts _ _ _ h
    cases k with
    | zero =>
      show hasOccur p [] = false
      rcases p with _ | ⟨c, ps⟩
      · exact absurd rfl hp
      · rfl
    | succ k2 =>
      show (leadsWith p (a :: t.take k2) || hasOccur p (t.take k2)) = false
      rw [ih k2 ht]
      have : leadsWith p (a :: t.take k2) = false := by
        rcases hlt : leadsWith p (a :: t.take k2) with _ | _
        · rfl
        · exfalso
          have : leadsWith p ((a :: t).take (k2 + 1)) = true := by
            simpa [List.take] using hlt
          rw [leadsWith_take p (a :: t) (k2 + 1) this] at hl
          cases hl
      rw [this]
      rfl

theorem hasOccur_drop (p : List Char) :
    ∀ (k : Nat) (l : List Char), hasOccur p l = false → hasOccur p (l.drop k) = false := by
  intro k
  induction k with
  | zero => intro l h; simpa using h
  | succ k2 ih =>
    intro l h
    cases l with
    | nil => simpa using h
    | cons a t =>
      show hasOccur p (t.drop k2) = false
      exact ih t (hasOccur_cons_parts _ _ _ h).2

theorem listChunks_cons_eq (k : Nat) (hk : ¬ k = 0) (a : Char) (t : List Char) :
    listChunks k (a :: t) = (a :: t).take k :: listChunks k ((a :: t).drop k) := by
  rw [listChunks]
  rw [dif_neg hk]

theorem listChunks_flatten (k : Nat) (hk : k ≠ 0) :
    ∀ (n : Nat) (l : List Char), l.length ≤ n → (listChunks k l).flatten = l := by
  intro n
  induction n with
  | zero =>
    intro l hl
    have : l = [] := by
      cases l with
      | nil => rfl
      | cons a t => simp at hl
    subst this
    rw [listChunks]
    rfl
  | succ n2 ih =>
    intro l hl
    cases l with
    | nil =>
      rw [listChunks]
      rfl
    | cons a t =>
      rw [listChunks_cons_eq k hk a t]
      show (a :: t).take k ++ (listChunks k ((a :: t).drop k)).flatten = a :: t
      rw [ih ((a :: t).drop k)
        (by simp only [List.length_drop, List.length_cons] at hl ⊢; omega)]
      exact List.take_append_drop k (a :: t)

theorem listChunks_noOccur (p : List Char) (hp : p ≠ []) (k : Nat) (hk : k ≠ 0) :
    ∀ (n : Nat) (l : List Char), l.length ≤ n → hasOccur p l = false →
      ∀ c ∈ listChunks k l, hasOccur p c = false := by
  intro n
  induction n with
  | zero =>
    intro l hl h c hc
    have : l = [] := by
      cases l with
      | nil => rfl
      | cons a t => simp at hl
    subst this
    rw [listChunks] at hc
    simp at hc
  | succ n2 ih =>
    intro l hl h c hc
    cases l with
    | nil => rw [listChunks] at hc; simp at hc
    | cons a t =>
      rw [listChunks_cons_eq k hk a t] at hc
      rcases List.mem_cons.mp hc with hc | hc
      · rw [hc]
        exact hasOccur_take p hp (a :: t) k h
      · exact ih ((a :: t).drop k)
          (by simp only [List.length_drop, List.length_cons] at hl ⊢; omega)
          (hasOccur_drop p k (a :: t) h) c hc


/-- Claim C9: `fold_line` is the identity on lines no longer than the
width, and for every width at least 1 and every line not itself containing
the CRLF+space sequence, deleting every occurrence of CRLF+space from the
folded output recovers the original line. -/
theorem fold_line_unfold_invertible :
    (∀ (width : Nat) (l : List Char), l.length ≤ width → foldLineChars width l = l)
    ∧ (∀ (width : Nat) (l : List Char), 1 ≤ width → hasOccur foldPat l = false →
        removeFold (foldLineChars width l) = l) := by
  constructor
  · intro w l h
    unfold foldLineChars
    rw [if_pos (Or.inr h)]
  · intro w l hw h
    unfold foldLineChars
    by_cases hc : l = [] ∨ l.length ≤ w
    · rw [if_pos hc]
      exact removeFold_id l h
    · rw [if_neg hc]
      rw [removeFold_joinSep (listChunks w l)
        (listChunks_noOccur foldPat (by decide) w (by omega) l.length l le_rfl h)]
      exact listChunks_flatten w (by omega) l.length l le_rfl

/-- Concrete application of the C9 theorem: a short line is untouched and a
width-5 folding of a longer line unfolds back to it. -/
theorem fold_line_unfold_invertible_witness :
    foldLineChars 80 "SUMMARY:Fun Hike".data = "SUMMARY:Fun Hike".data
    ∧ removeFold (foldLineChars 5 "DESCRIPTION:Join us for a hike".data)
        = "DESCRIPTION:Join us for a hike".data :=
  ⟨fold_line_unfold_invertible.1 80 "SUMMARY:Fun Hike".data (by decide),
   fold_line_unfold_invertible.2 5 "DESCRIPTION:Join us for a hike".data (by decide) (by decide)⟩

/-! ### Claim C1 — format_date year repair -/

theorem validDT_parts (t : DateTime) (h : validDT t = true) :
    1 ≤ t.year ∧ t.year ≤ 9999 ∧ 1 ≤ t.month ∧ t.month ≤ 12
    ∧ 1 ≤ t.day ∧ t.day ≤ daysInMonth t.year t.month
    ∧ t.hour ≤ 23 ∧ t.minute ≤ 59 ∧ t.second ≤ 59 := by
  simp [validDT, validDate, validTime] at h
  tauto

theorem daysBeforeMonth_day_lt (y m d : Nat) (hm1 : 1 ≤ m) (hm : m ≤ 12)
    (hd1 : 1 ≤ d) (hd : d ≤ daysInMonth y m) :
    daysBeforeMonth y m + (d - 1) < daysInYear y := by
  rcases hL : isLeap y with _ | _ <;>
    (interval_cases m <;> simp_all [daysBeforeMonth, daysInMonth, daysInYear] <;> omega)

theorem leapsBefore_succ (n : Nat) :
    leapsBefore (n + 1) = leapsBefore n + (if isLeap (n + 1) then 1 else 0) := rfl

theorem leapsBefore_mono : ∀ {n m : Nat}, n ≤ m → leapsBefore n ≤ leapsBefore m := by
  intro n m h
  induction m with
  | zero =>
    have : n = 0 := by omega
    subst this
    exact le_refl _
  | succ m2 ih =>
    rcases Nat.eq_or_lt_of_le h with he | hlt
    · subst he; exact le_refl _
    · have h2 : n ≤ m2 := by omega
      calc leapsBefore n ≤ leapsBefore m2 := ih h2
        _ ≤ leapsBefore (m2 + 1) := by rw [leapsBefore_succ]; omega

theorem daysBeforeYear_succ (y : Nat) (hy : 1 ≤ y) :
    daysBeforeYear (y + 1) = daysBeforeYear y + daysInYear y := by
  obtain ⟨y0, rfl⟩ : ∃ y0, y = y0 + 1 := ⟨y - 1, by omega⟩
  show 365 * (y0 + 1) + leapsBefore (y0 + 1) = 365 * y0 + leapsBefore y0 + daysInYear (y0 + 1)
  rw [leapsBefore_succ]
  unfold daysInYear
  split <;> omega

theorem daysBeforeYear_mono {y y2 : Nat} (h : y ≤ y2) :
    daysBeforeYear y ≤ daysBeforeYear y2 := by
  unfold daysBeforeYear
  have h1 : 365 * (y - 1) ≤ 365 * (y2 - 1) := by
    have : y - 1 ≤ y2 - 1 := by omega
    exact Nat.mul_le_mul_left 365 this
  have h2 : leapsBefore (y - 1) ≤ leapsBefore (y2 - 1) := leapsBefore_mono (by omega)
  omega

theorem toSecs_lower (t : DateTime) : daysBeforeYear t.year * 86400 ≤ toSecs t := by
  unfold toSecs toOrdinal
  have : daysBeforeYear t.year ≤ daysBeforeYear t.year + daysBeforeMonth t.year t.month + (t.day - 1) := by omega
  calc daysBeforeYear t.year * 86400
      ≤ (daysBeforeYear t.year + daysBeforeMonth t.year t.month + (t.day - 1)) * 86400 :=
        Nat.mul_le_mul_right 86400 this
    _ ≤ _ := by omega

theorem toSecs_upper (t : DateTime) (h : validDT t = true) :
    toSecs t < daysBeforeYear (t.year + 1) * 86400 := by
  obtain ⟨hy1, hy2, hm1, hm2, hd1, hd2, hh, hmi, hs⟩ := validDT_parts t h
  have hday : daysBeforeMonth t.year t.month + (t.day - 1) < daysInYear t.year :=
    daysBeforeMonth_day_lt t.year t.month t.day hm1 hm2 hd1 hd2
  have hord : toOrdinal t + 1 ≤ daysBeforeYear (t.year + 1) := by
    rw [daysBeforeYear_succ t.year hy1]
    unfold toOrdinal
    omega
  have htime : t.hour * 3600 + t.minute * 60 + t.second < 86400 := by omega
  unfold toSecs
  calc toOrdinal t * 86400 + t.hour * 3600 + t.minute * 60 + t.second
      < toOrdinal t * 86400 + 86400 := by omega
    _ = (toOrdinal t + 1) * 86400 := by ring
    _ ≤ daysBeforeYear (t.year + 1) * 86400 := Nat.mul_le_mul_right 86400 hord

set_option maxHeartbeats 2000000 in
/-- Claim C1: for every field-set whose (valid) date lies strictly more than
365 days before `now`, `format_date` renders a date whose year is the
current or the next year and never the original year; when the current-year
candidate is itself constructible, the next year is used exactly when that
candidate is more than 30 days in the past. -/
theorem format_date_year_repair
    (dd : PyDateDict) (now : DateTime) (y0 m d hr mi se : Nat)
    (hy : dd.year = some y0) (hy0 : y0 ≠ 0)
    (hm : dd.month.getD 1 = m) (hd : dd.day.getD 1 = d)
    (hhr : dd.hour.getD 0 = hr) (hmi : dd.minute.getD 0 = mi) (hse : dd.second.getD 0 = se)
    (hvalid : validDT ⟨y0, m, d, hr, mi, se⟩ = true)
    (hnow : validDT now = true)
    (hfar : (toSecs ⟨y0, m, d, hr, mi, se⟩ : Int) < (toSecs now : Int) - 365 * 86400) :
    formatDateDict dd now
        = FormatDateResult.str (renderIso (repairedYear y0 m d hr mi se now) m d dd.hour mi se)
    ∧ (repairedYear y0 m d hr mi se now = now.year
        ∨ repairedYear y0 m d hr mi se now = now.year + 1)
    ∧ repairedYear y0 m d hr mi se now ≠ y0
    ∧ (validDT ⟨now.year, m, d, hr, mi, se⟩ = true →
        (repairedYear y0 m d hr mi se now = now.year + 1 ↔
          (toSecs ⟨now.year, m, d, hr, mi, se⟩ : Int) < (toSecs now : Int) - 30 * 86400)) := by
  subst hm hd hhr hmi hse
  have hrender : formatDateDict dd now
      = FormatDateResult.str (renderIso
          (repairedYear y0 (dd.month.getD 1) (dd.day.getD 1) (dd.hour.getD 0)
            (dd.minute.getD 0) (dd.second.getD 0) now)
          (dd.month.getD 1) (dd.day.getD 1) dd.hour (dd.minute.getD 0) (dd.second.getD 0)) := by
    simp only [formatDateDict, hy]
    rw [if_neg hy0]
  refine ⟨hrender, ?_, ?_, ?_⟩ <;>
    unfold repairedYear <;>
    rw [if_pos hvalid, if_pos hfar]
  · -- year is current or next
    by_cases hcv : validDT ⟨now.year, dd.month.getD 1, dd.day.getD 1, dd.hour.getD 0,
        dd.minute.getD 0, dd.second.getD 0⟩ = true
    · rw [if_pos hcv]
      by_cases h30 : (toSecs ⟨now.year, dd.month.getD 1, dd.day.getD 1, dd.hour.getD 0,
          dd.minute.getD 0, dd.second.getD 0⟩ : Int) < (toSecs now : Int) - 30 * 86400
      · rw [if_pos h30]; right; rfl
      · rw [if_neg h30]; left; rfl
    · rw [if_neg hcv]; left; rfl
  · -- the repaired year is never the original year
    by_cases hcv : validDT ⟨now.year, dd.month.getD 1, dd.day.getD 1, dd.hour.getD 0,
        dd.minute.getD 0, dd.second.getD 0⟩ = true
    · rw [if_pos hcv]
      by_cases h30 : (toSecs ⟨now.year, dd.month.getD 1, dd.day.getD 1, dd.hour.getD 0,
          dd.minute.getD 0, dd.second.getD 0⟩ : Int) < (toSecs now : Int) - 30 * 86400
      · rw [if_pos h30]
        intro he
        have h1 : daysBeforeYear y0 * 86400
            ≤ toSecs ⟨y0, dd.month.getD 1, dd.day.getD 1, dd.hour.getD 0,
                dd.minute.getD 0, dd.second.getD 0⟩ :=
          toSecs_lower ⟨y0, dd.month.getD 1, dd.day.getD 1, dd.hour.getD 0,
            dd.minute.getD 0, dd.second.getD 0⟩
        have h2 : toSecs now < daysBeforeYear (now.year + 1) * 86400 := toSecs_upper now hnow
        rw [he] at h2
        have h1i : (daysBeforeYear y0 * 86400 : Int)
            ≤ (toSecs ⟨y0, dd.month.getD 1, dd.day.getD 1, dd.hour.getD 0,
                dd.minute.getD 0, dd.second.getD 0⟩ : Int) := by exact_mod_cast h1
        have h2i : (toSecs now : Int) < (daysBeforeYear y0 * 86400 : Int) := by exact_mod_cast h2
        omega
      · rw [if_neg h30]
        intro he
        apply h30
        rw [he]
        omega
    · rw [if_neg hcv]
      intro he
      apply hcv
      rw [he]
      exact hvalid
  · -- next year exactly when the current-year candidate is >30 days past
    intro hcv
    rw [if_pos hcv]
    by_cases h30 : (toSecs ⟨now.year, dd.month.getD 1, dd.day.getD 1, dd.hour.getD 0,
        dd.minute.getD 0, dd.second.getD 0⟩ : Int) < (toSecs now : Int) - 30 * 86400
    · rw [if_pos h30]
      exact ⟨fun _ => h30, fun _ => rfl⟩
    · rw [if_neg h30]
      constructor
      · intro he; omega
      · intro hh; exact absurd hh h30

/-- Concrete application of the C1 theorem: year 2 (March 10) seen from
year 5 (June 15) repairs to year 6 (the March 10 of year 5 being more than
30 days past), rendered without a time part. -/
theorem format_date_year_repair_witness :
    formatDateDict { year := some 2, month := some 3, day := some 10 } ⟨5, 6, 15, 0, 0, 0⟩
        = FormatDateResult.str
            (renderIso (repairedYear 2 3 10 0 0 0 ⟨5, 6, 15, 0, 0, 0⟩) 3 10 none 0 0)
    ∧ (repairedYear 2 3 10 0 0 0 ⟨5, 6, 15, 0, 0, 0⟩ = 5
        ∨ repairedYear 2 3 10 0 0 0 ⟨5, 6, 15, 0, 0, 0⟩ = 6)
    ∧ repairedYear 2 3 10 0 0 0 ⟨5, 6, 15, 0, 0, 0⟩ ≠ 2
    ∧ (validDT ⟨5, 3, 10, 0, 0, 0⟩ = true →
        (repairedYear 2 3 10 0 0 0 ⟨5, 6, 15, 0, 0, 0⟩ = 6 ↔
          (toSecs ⟨5, 3, 10, 0, 0, 0⟩ : Int) < (toSecs ⟨5, 6, 15, 0, 0, 0⟩ : Int) - 30 * 86400)) :=
  format_date_year_repair { year := some 2, month := some 3, day := some 10 }
    ⟨5, 6, 15, 0, 0, 0⟩ 2 3 10 0 0 0
    rfl (by decide) rfl rfl rfl rfl rfl (by decide) (by decide) (by decide)
